import Mathlib

/-!
Shallow embedding of `src/unlicense/emulation.py` (the shadow-execution
resolver of UnpackThemida).  The module drives the external Unicorn CPU
emulator over a wrapper stub inside a protected process in order to find the
genuine exported API the wrapper forwards to.

Embedding choices:
* The external process-control service (`ProcessController`, defined in
  `process_control.py`, which is not part of the analysed sources) is
  modelled from the spec as a record of read-only capabilities.
* The external emulation engine (Unicorn) owns instruction execution, which
  is out of scope for this repository; the engine's behaviour during one
  `emu_start` call is modelled as a list of engine events (basic-block
  entries, unmapped-memory faults, engine-internal register/memory updates,
  internal errors).  The code under verification is the pair of hooks and
  the orchestration in `resolve_wrapped_api`, which this file transcribes
  from the source.
* Machine integers are `Nat`; the packed byte strings produced by
  `struct.pack`/`struct.unpack` are little-endian byte lists.
* Every interaction with the process-control service, together with
  emulator-resource allocations, is recorded in an event log so that
  read-onlyness, allocation order and enumeration counts are statable.
-/

namespace Unlicense

deriving instance DecidableEq for Except

/-- Modelled from the spec: the Process-Control Service of §6, the external
collaborator that the resolver queries.  The concrete class
(`process_control.py`) is not among the analysed sources; per the spec it
exposes the architecture tag, the page size, the pointer size (bytes), a
fallible memory-read primitive and export enumeration.  `none` from
`read_process_memory` models the read raising an error.  `exports` is the
mapping address → exported-function name returned by
`enumerate_exported_functions` (the `name` field of the metadata record is
the only field the resolver consumes). -/
structure ProcessController where
  architecture : String
  page_size : Nat
  pointer_size : Nat
  read_process_memory : Nat → Nat → Option (List Nat)
  exports : List (Nat × String)

/-- Log of observable interactions: queries to the process-control service
and emulator-resource allocations.  `writeProcessMemory` is never emitted by
the embedded code; it is present so that "the resolver never writes to the
real process" is a falsifiable statement about the log. -/
inductive TraceEv where
  | getArchitecture
  | getPageSize
  | getPointerSize
  | readProcessMemory (address length : Nat)
  | enumerateExports
  | writeProcessMemory (address : Nat) (bytes : List Nat)
  | ucCreate
  | ucMemMap (base size perms : Nat)
  deriving DecidableEq, Repr

/-- `unicorn` protection-flag constants. -/
def UC_PROT_READ : Nat := 1

def UC_PROT_WRITE : Nat := 2

def UC_PROT_EXEC : Nat := 4

def UC_PROT_ALL : Nat := 7

/-- `unicorn.x86_const` register identifiers.  The embedding relies only on
their distinctness, matching their role as lookup keys in the engine. -/
def UC_X86_REG_EBP : Nat := 20

def UC_X86_REG_EIP : Nat := 26

def UC_X86_REG_ESP : Nat := 30

def UC_X86_REG_RBP : Nat := 36

def UC_X86_REG_RIP : Nat := 41

def UC_X86_REG_RSP : Nat := 44

def UC_X86_REG_MSR : Nat := 250

/-- `STACK_MAGIC_RET_ADDR = 0xdeadbeef` (emulation.py line 16): the sentinel
synthetic return address. -/
def STACK_MAGIC_RET_ADDR : Nat := 0xdeadbeef

/-- State of one Unicorn emulator instance: registers and model-specific
registers as most-recent-first association lists, the set of mapped regions
`(base, size, perms)`, sparse byte contents, and whether `emu_stop` has been
requested. -/
structure UcState where
  regs : List (Nat × Nat)
  msrs : List (Nat × Nat)
  regions : List (Nat × Nat × Nat)
  mem : List (Nat × Nat)
  stopped : Bool
  deriving DecidableEq, Repr, Inhabited

/-- The freshly created emulator instance `Uc(uc_arch, uc_mode)`: no
registers written, nothing mapped. -/
def initUcState : UcState :=
  { regs := [], msrs := [], regions := [], mem := [], stopped := false }

/-- `uc.reg_read`: unwritten registers read as 0 in a fresh instance. -/
def reg_read (uc : UcState) (reg : Nat) : Nat :=
  (uc.regs.lookup reg).getD 0

/-- `uc.reg_write`. -/
def reg_write (uc : UcState) (reg val : Nat) : UcState :=
  { uc with regs := (reg, val) :: uc.regs }

/-- `uc.reg_write(UC_X86_REG_MSR, (msr_id, val))`: the MSR bank is keyed by
the MSR identifier, separate from the ordinary register file. -/
def reg_write_msr (uc : UcState) (msrId val : Nat) : UcState :=
  { uc with msrs := (msrId, val) :: uc.msrs }

/-- `uc.emu_stop()`. -/
def emu_stop (uc : UcState) : UcState :=
  { uc with stopped := true }

/-- The mapped region of `uc` containing address `a`, if any. -/
def findRegion (uc : UcState) (a : Nat) : Option (Nat × Nat × Nat) :=
  uc.regions.find? (fun r => decide (r.1 ≤ a) && decide (a < r.1 + r.2.1))

/-- Two half-open intervals `[b1, b1+s1)` and `[b2, b2+s2)` intersect. -/
def regionsOverlap (b1 s1 b2 s2 : Nat) : Bool :=
  decide (b1 < b2 + s2) && decide (b2 < b1 + s1)

/-- `uc.mem_map(base, size, perms)` per the engine contract of spec §6
("memory map/write/read over its own address space with permission
flags"): an empty mapping and a mapping that collides with an existing
region are rejected (a rejection raises `UcError`); further
engine-implementation restrictions such as mapping granularity are not part
of the contract and are not modelled. -/
def uc_mem_map (uc : UcState) (base size perms : Nat) : Except Unit UcState :=
  if size = 0 then .error ()
  else if uc.regions.any (fun r => regionsOverlap base size r.1 r.2.1) then .error ()
  else .ok { uc with regions := (base, size, perms) :: uc.regions }

/-- Store a byte string at consecutive addresses (most recent binding
first). -/
def writeBytes (mem : List (Nat × Nat)) (addr : Nat) : List Nat → List (Nat × Nat)
  | [] => mem
  | b :: rest => writeBytes ((addr, b) :: mem) (addr + 1) rest

/-- `uc.mem_write(addr, bytes)`: raises `UcError` unless every written byte
falls inside a mapped region. -/
def uc_mem_write (uc : UcState) (addr : Nat) (bytes : List Nat) : Except Unit UcState :=
  if (List.range bytes.length).all (fun i => (findRegion uc (addr + i)).isSome) then
    .ok { uc with mem := writeBytes uc.mem addr bytes }
  else .error ()

/-- `uc.mem_read(addr, len)`: raises `UcError` unless every read byte falls
inside a mapped region; bytes never explicitly written read as 0. -/
def uc_mem_read (uc : UcState) (addr len : Nat) : Except Unit (List Nat) :=
  if (List.range len).all (fun i => (findRegion uc (addr + i)).isSome) then
    .ok ((List.range len).map (fun i => (uc.mem.lookup (addr + i)).getD 0))
  else .error ()

/-- Little-endian byte string of width `n` for value `v` (the layout
`struct.pack` uses for the `"<I"`/`"<Q"` formats). -/
def leBytes : Nat → Nat → List Nat
  | 0, _ => []
  | n + 1, v => (v % 256) :: leBytes n (v / 256)

/-- Little-endian decoding, inverse of `leBytes` (what `struct.unpack`
computes on the `"<I"`/`"<Q"` formats). -/
def leDecode : List Nat → Nat
  | [] => 0
  | b :: rest => b % 256 + 256 * leDecode rest

/-- Modelled from the spec: `dump_utils.pointer_size_to_fmt` composed with
`struct.pack`/`struct.unpack`.  `dump_utils.py` is not among the analysed
sources; per the spec the pointer size is the byte width (4 or 8) reported
by the process-control service, and the packed value is the little-endian
pointer-sized byte string.  Any other width has no format string, which the
helper reports by raising (`none` here). -/
def packPointer (ptrSize v : Nat) : Option (List Nat) :=
  if ptrSize = 4 ∨ ptrSize = 8 then some (leBytes ptrSize v) else none

/-- Modelled from the spec: `struct.unpack(pointer_size_to_fmt(n), bytes)`,
the little-endian decoding of a pointer-sized byte string; fails (raises)
for widths without a format string. -/
def unpackPointer (ptrSize : Nat) (bytes : List Nat) : Option Nat :=
  if ptrSize = 4 ∨ ptrSize = 8 then some (leDecode bytes) else none

/-- Uncaught Python exceptions that can escape `resolve_wrapped_api` (it
only catches `UcError`): the `NotImplementedError` of the architecture
dispatch, the `NameError` the block hook would hit on an undefined register
variable, and the error `struct`/`pointer_size_to_fmt` raise on an unknown
pointer size. -/
inductive PyExc where
  | notImplemented
  | nameError
  | structError
  deriving DecidableEq, Repr

/-- Result of one hook body: either a new emulator state, or an exception
escaping the hook — `ucErr` for a `UcError` (re-raised from `emu_start` and
caught by the orchestrator), `py` for any other Python exception (re-raised
and *not* caught). -/
inductive BlockErr where
  | ucErr
  | py (e : PyExc)
  deriving DecidableEq, Repr

/-- `_is_no_return_api` (emulation.py lines 170-172). -/
def _is_no_return_api (api_name : String) : Bool :=
  let NO_RETURN_APIS := ["ExitProcess", "FatalExit", "ExitThread"]
  NO_RETURN_APIS.contains api_name

/-- The register pair `(pc_register, sp_register)` selected by the
`if arch == "ia32" / elif arch == "x64"` chain of `_unicorn_hook_block`
(emulation.py lines 146-151).  The chain has no `else` branch: any other tag
leaves both variables undefined, modelled as `none`. -/
def selectHookRegs (arch : String) : Option (Nat × Nat) :=
  if arch = "ia32" then some (UC_X86_REG_EIP, UC_X86_REG_ESP)
  else if arch = "x64" then some (UC_X86_REG_RIP, UC_X86_REG_RSP)
  else none

/-- `_unicorn_hook_unmapped` (emulation.py lines 117-138): the Memory
Bridge.  Returns the boolean handed back to the engine together with the
updated emulator state and the interaction log.  A faulting address of 0 is
declined outright; otherwise the address is aligned down to the page
boundary with `address - (address & (page_size - 1))`, one page is read
from the real process and mapped with `UC_PROT_ALL`.  Any error — the
process read raising, or `mem_map`/`mem_write` raising `UcError` — is
caught inside the hook and reported as `False`.  (The `LOG.debug` calls are
omitted: logging is outside the modelled behaviour.) -/
def _unicorn_hook_unmapped (uc : UcState) (address : Nat)
    (process_controller : ProcessController) : (Bool × UcState) × List TraceEv :=
  if address = 0 then ((false, uc), [])
  else
    let page_size := process_controller.page_size
    let aligned_addr := address - (address &&& (page_size - 1))
    match process_controller.read_process_memory aligned_addr page_size with
    | none =>
        ((false, uc), [.getPageSize, .readProcessMemory aligned_addr page_size])
    | some in_process_data =>
        match uc_mem_map uc aligned_addr in_process_data.length UC_PROT_ALL with
        | .error _ =>
            ((false, uc),
              [.getPageSize, .readProcessMemory aligned_addr page_size,
                .ucMemMap aligned_addr in_process_data.length UC_PROT_ALL])
        | .ok uc1 =>
            match uc_mem_write uc1 aligned_addr in_process_data with
            | .error _ =>
                ((false, uc1),
                  [.getPageSize, .readProcessMemory aligned_addr page_size,
                    .ucMemMap aligned_addr in_process_data.length UC_PROT_ALL])
            | .ok uc2 =>
                ((true, uc2),
                  [.getPageSize, .readProcessMemory aligned_addr page_size,
                    .ucMemMap aligned_addr in_process_data.length UC_PROT_ALL])

/-- `_unicorn_hook_block` (emulation.py lines 141-167): the Termination
Oracle.  `user_data` is the `(process_controller, stop_on_ret_addr)` tuple
bound at hook installation.  Faithful to the source's control flow: the
export dictionary is re-enumerated on *every* invocation; the undefined
`sp_register` of an unsupported architecture tag only raises (`NameError`)
once the reached address is a known export and the register is used;
`uc.mem_read` raising `UcError` inside the hook propagates out of
`emu_start`; `emu_stop` is requested when the decoded return address equals
`stop_on_ret_addr` *or* the sentinel, or else when the export's name is in
the non-returning list. -/
def _unicorn_hook_block (uc : UcState) (address : Nat)
    (user_data : ProcessController × Nat) : Except BlockErr UcState × List TraceEv :=
  let process_controller := user_data.1
  let stop_on_ret_addr := user_data.2
  let ptr_size := process_controller.pointer_size
  let arch := process_controller.architecture
  let log : List TraceEv := [.getPointerSize, .getArchitecture, .enumerateExports]
  match process_controller.exports.lookup address with
  | none => (.ok uc, log)
  | some api_name =>
      match selectHookRegs arch with
      | none => (.error (.py .nameError), log)
      | some regPair =>
          let sp := reg_read uc regPair.2
          match uc_mem_read uc sp ptr_size with
          | .error _ => (.error .ucErr, log)
          | .ok ret_addr_data =>
              match unpackPointer ptr_size ret_addr_data with
              | none => (.error (.py .structError), log)
              | some ret_addr =>
                  if ret_addr = stop_on_ret_addr ∨ ret_addr = STACK_MAGIC_RET_ADDR then
                    (.ok (emu_stop uc), log)
                  else if _is_no_return_api api_name then
                    (.ok (emu_stop uc), log)
                  else
                    (.ok uc, log)

/-- `_setup_teb_x86` (emulation.py lines 89-100): maps one page each for the
TEB and PEB, stores the self/PEB pointers at offsets 0x18/0x30 and programs
the FS base MSR.  Any `UcError` propagates to the orchestrator's handler. -/
def _setup_teb_x86 (uc : UcState) (process_info : ProcessController) :
    Except Unit UcState × List TraceEv :=
  let MSG_IA32_FS_BASE : Nat := 0xC0000100
  let teb_addr : Nat := 0xff100000
  let peb_addr : Nat := 0xff200000
  let page_size := process_info.page_size
  let log : List TraceEv :=
    [.getPageSize, .ucMemMap teb_addr page_size (UC_PROT_READ ||| UC_PROT_WRITE),
      .getPageSize, .ucMemMap peb_addr page_size (UC_PROT_READ ||| UC_PROT_WRITE)]
  match uc_mem_map uc teb_addr page_size (UC_PROT_READ ||| UC_PROT_WRITE) with
  | .error _ => (.error (), log)
  | .ok uc1 =>
      match uc_mem_map uc1 peb_addr page_size (UC_PROT_READ ||| UC_PROT_WRITE) with
      | .error _ => (.error (), log)
      | .ok uc2 =>
          match uc_mem_write uc2 (teb_addr + 0x18) (leBytes 4 teb_addr) with
          | .error _ => (.error (), log)
          | .ok uc3 =>
              match uc_mem_write uc3 (teb_addr + 0x30) (leBytes 4 peb_addr) with
              | .error _ => (.error (), log)
              | .ok uc4 => (.ok (reg_write_msr uc4 MSG_IA32_FS_BASE teb_addr), log)

/-- `_setup_teb_x64` (emulation.py lines 103-114): as `_setup_teb_x86` with
the 64-bit addresses, offsets 0x30/0x60 and the GS base MSR. -/
def _setup_teb_x64 (uc : UcState) (process_info : ProcessController) :
    Except Unit UcState × List TraceEv :=
  let MSG_IA32_GS_BASE : Nat := 0xC0000101
  let teb_addr : Nat := 0xff10000000000000
  let peb_addr : Nat := 0xff20000000000000
  let page_size := process_info.page_size
  let log : List TraceEv :=
    [.getPageSize, .ucMemMap teb_addr page_size (UC_PROT_READ ||| UC_PROT_WRITE),
      .getPageSize, .ucMemMap peb_addr page_size (UC_PROT_READ ||| UC_PROT_WRITE)]
  match uc_mem_map uc teb_addr page_size (UC_PROT_READ ||| UC_PROT_WRITE) with
  | .error _ => (.error (), log)
  | .ok uc1 =>
      match uc_mem_map uc1 peb_addr page_size (UC_PROT_READ ||| UC_PROT_WRITE) with
      | .error _ => (.error (), log)
      | .ok uc2 =>
          match uc_mem_write uc2 (teb_addr + 0x30) (leBytes 8 teb_addr) with
          | .error _ => (.error (), log)
          | .ok uc3 =>
              match uc_mem_write uc3 (teb_addr + 0x60) (leBytes 8 peb_addr) with
              | .error _ => (.error (), log)
              | .ok uc4 => (.ok (reg_write_msr uc4 MSG_IA32_GS_BASE teb_addr), log)

/-- The per-architecture configuration selected by the
`if arch == "ia32" / elif arch == "x64" / else raise` chain of
`resolve_wrapped_api` (emulation.py lines 24-42). -/
structure ArchConfig where
  pc_register : Nat
  sp_register : Nat
  bp_register : Nat
  stack_addr : Nat
  setup_teb : UcState → ProcessController → Except Unit UcState × List TraceEv

/-- The 32-bit branch of the architecture dispatch. -/
def ia32Config : ArchConfig :=
  { pc_register := UC_X86_REG_EIP
    sp_register := UC_X86_REG_ESP
    bp_register := UC_X86_REG_EBP
    stack_addr := 0xff000000
    setup_teb := _setup_teb_x86 }

/-- The 64-bit branch of the architecture dispatch. -/
def x64Config : ArchConfig :=
  { pc_register := UC_X86_REG_RIP
    sp_register := UC_X86_REG_RSP
    bp_register := UC_X86_REG_RBP
    stack_addr := 0xff00000000000000
    setup_teb := _setup_teb_x64 }

/-- The architecture dispatch of `resolve_wrapped_api`: exactly the tags
`"ia32"` and `"x64"` are supported; anything else raises
`NotImplementedError` (modelled by `none`). -/
def archConfig (arch : String) : Option ArchConfig :=
  if arch = "ia32" then some ia32Config
  else if arch = "x64" then some x64Config
  else none

/-- Errors escaping the environment-construction steps of
`resolve_wrapped_api` (lines 45-59): a `UcError` (caught by the
orchestrator's handler) or the `struct` error on an unknown pointer size
(not caught). -/
inductive BuildErr where
  | ucErr
  | structError
  deriving DecidableEq, Repr

/-- The environment-construction prefix of `resolve_wrapped_api`
(emulation.py lines 45-59): create the emulator, map a three-page stack at
the profile's stack base, write the packed sentinel return address at the
stack's usable top (`stack_start`, one page below the end), point the stack
and frame pointer registers at that top and run the architecture's TEB/PEB
setup.  Note that this prefix does not depend on `expected_ret_addr`: the
sentinel is written unconditionally. -/
def buildEnv (process_controller : ProcessController) (cfg : ArchConfig) :
    Except BuildErr UcState × List TraceEv :=
  let uc0 := initUcState
  let page_size := process_controller.page_size
  let stack_size := 3 * page_size
  let stack_start := cfg.stack_addr + stack_size - page_size
  let log0 : List TraceEv :=
    [.ucCreate, .getPageSize,
      .ucMemMap cfg.stack_addr stack_size (UC_PROT_READ ||| UC_PROT_WRITE)]
  match uc_mem_map uc0 cfg.stack_addr stack_size (UC_PROT_READ ||| UC_PROT_WRITE) with
  | .error _ => (.error .ucErr, log0)
  | .ok uc1 =>
      match packPointer process_controller.pointer_size STACK_MAGIC_RET_ADDR with
      | none => (.error .structError, log0 ++ [.getPointerSize])
      | some packed =>
          match uc_mem_write uc1 stack_start packed with
          | .error _ => (.error .ucErr, log0 ++ [.getPointerSize])
          | .ok uc2 =>
              let uc3 := reg_write uc2 cfg.sp_register stack_start
              let uc4 := reg_write uc3 cfg.bp_register stack_start
              match cfg.setup_teb uc4 process_controller with
              | (.error _, logT) => (.error .ucErr, log0 ++ [.getPointerSize] ++ logT)
              | (.ok uc5, logT) => (.ok uc5, log0 ++ [.getPointerSize] ++ logT)

/-- One engine-side event during an `emu_start` run.  Instruction-level
execution belongs to the external engine (spec §1/§6): a run is modelled as
the sequence of observable events the engine generates — basic-block
entries (firing the Termination Oracle), unmapped-memory faults (firing the
Memory Bridge), engine-internal register/memory updates performed by the
executed instructions, and engine-internal failures. -/
inductive UcEvent where
  | block (address : Nat)
  | unmapped (address : Nat)
  | writeReg (reg val : Nat)
  | writeMem (addr : Nat) (bytes : List Nat)
  | internalFault
  deriving DecidableEq, Repr

/-- How an `emu_start` call ends: a clean return (oracle-requested stop or
the bound address reached), a `UcError` raised, or a non-`UcError` Python
exception re-raised out of a hook. -/
inductive RunOutcome where
  | halted (uc : UcState)
  | ucError (uc : UcState)
  | pyError (e : PyExc) (uc : UcState)
  deriving DecidableEq, Repr

/-- Prefix a log onto the log component of a run result. -/
def withLog (l : List TraceEv) (x : RunOutcome × List TraceEv) :
    RunOutcome × List TraceEv :=
  (x.1, l ++ x.2)

/-- The engine's instruction fetch at address `a`: succeeds on an
executable mapped region; a fetch outside any region raises the unmapped
fault, giving the Memory Bridge one chance to map the page (after which the
fetch is retried once); a fetch from a mapped but non-executable region is
a protection fault the run has no handler for. -/
def fetchAt (ctrl : ProcessController) (uc : UcState) (a : Nat) :
    (Bool × UcState) × List TraceEv :=
  match findRegion uc a with
  | some r => ((decide ((r.2.2 &&& UC_PROT_EXEC) ≠ 0), uc), [])
  | none =>
      match _unicorn_hook_unmapped uc a ctrl with
      | ((false, uc1), l) => ((false, uc1), l)
      | ((true, uc1), l) =>
          match findRegion uc1 a with
          | some r => ((decide ((r.2.2 &&& UC_PROT_EXEC) ≠ 0), uc1), l)
          | none => ((false, uc1), l)

/-- Process the engine's event sequence for one `emu_start(begin, until)`
call.  `emu_stop` requested by the Termination Oracle ends the run at the
current state (program counter still at the block address the engine set);
if the engine exhausts its events without a stop request it has run to the
`until` bound, where it halts cleanly with the program counter at the bound
address.  An unmapped-memory fault the Memory Bridge declines, and an
engine-internal failure, each raise `UcError`; a non-`UcError` exception in
the block hook is re-raised as itself. -/
def runEvents (ctrl : ProcessController) (cfg : ArchConfig) (stop_on untilAddr : Nat) :
    List UcEvent → UcState → RunOutcome × List TraceEv
  | [], uc =>
      if uc.stopped then (.halted uc, [])
      else (.halted (reg_write uc cfg.pc_register untilAddr), [])
  | e :: rest, uc =>
      if uc.stopped then (.halted uc, [])
      else
        match e with
        | .writeReg r v => runEvents ctrl cfg stop_on untilAddr rest (reg_write uc r v)
        | .writeMem a bs =>
            runEvents ctrl cfg stop_on untilAddr rest { uc with mem := writeBytes uc.mem a bs }
        | .internalFault => (.ucError uc, [])
        | .unmapped a =>
            match _unicorn_hook_unmapped uc a ctrl with
            | ((true, uc1), l) => withLog l (runEvents ctrl cfg stop_on untilAddr rest uc1)
            | ((false, uc1), l) => (.ucError uc1, l)
        | .block a =>
            match fetchAt ctrl uc a with
            | ((false, uc1), l) => (.ucError uc1, l)
            | ((true, uc1), l) =>
                let uc2 := reg_write uc1 cfg.pc_register a
                match _unicorn_hook_block uc2 a (ctrl, stop_on) with
                | (.error .ucErr, l2) => (.ucError uc2, l ++ l2)
                | (.error (.py e2), l2) => (.pyError e2 uc2, l ++ l2)
                | (.ok uc3, l2) => withLog (l ++ l2) (runEvents ctrl cfg stop_on untilAddr rest uc3)

/-- `uc.emu_start(begin, until)`: fetch the first instruction at `begin`
(the wrapper entry), then process the engine's events. -/
def emuStart (ctrl : ProcessController) (cfg : ArchConfig) (stop_on begin_ untilAddr : Nat)
    (engine : List UcEvent) (uc : UcState) : RunOutcome × List TraceEv :=
  match fetchAt ctrl uc begin_ with
  | ((false, uc1), l) => (.ucError uc1, l)
  | ((true, uc1), l) => withLog l (runEvents ctrl cfg stop_on untilAddr engine uc1)

/-- `resolve_wrapped_api` (emulation.py lines 20-86).  The extra `engine`
argument is the external engine's event sequence for this run (spec §6).
The `if expected_ret_addr is None` selection of `stop_on_ret_addr` (lines
62-65) is transcribed as `Option.getD`.
Result: `.error e` models an uncaught exception escaping the call,
`.ok none` the `return None` of the `except UcError` handler (whose
register reads feed only `LOG.debug`), `.ok (some pc)` the program counter
returned after a clean halt. -/
def resolve_wrapped_api (wrapper_start_addr : Nat)
    (process_controller : ProcessController) (expected_ret_addr : Option Nat)
    (engine : List UcEvent) : Except PyExc (Option Nat) × List TraceEv :=
  match archConfig process_controller.architecture with
  | none => (.error .notImplemented, [.getArchitecture])
  | some cfg =>
      match buildEnv process_controller cfg with
      | (.error .ucErr, l) => (.ok none, .getArchitecture :: l)
      | (.error .structError, l) => (.error .structError, .getArchitecture :: l)
      | (.ok uc, l) =>
          match emuStart process_controller cfg
              (expected_ret_addr.getD STACK_MAGIC_RET_ADDR) wrapper_start_addr
              (wrapper_start_addr + 1024) engine uc with
          | (.halted s, l2) =>
              (.ok (some (reg_read s cfg.pc_register)), .getArchitecture :: (l ++ l2))
          | (.ucError _, l2) => (.ok none, .getArchitecture :: (l ++ l2))
          | (.pyError e _, l2) => (.error e, .getArchitecture :: (l ++ l2))

/-- The emulation run performed inside `resolve_wrapped_api`, exposed for
stating claims about run outcomes: `none` when the call never starts
emulation (unsupported architecture or construction failure). -/
def resolveRun (wrapper_start_addr : Nat) (process_controller : ProcessController)
    (expected_ret_addr : Option Nat) (engine : List UcEvent) :
    Option (RunOutcome × List TraceEv) :=
  match archConfig process_controller.architecture with
  | none => none
  | some cfg =>
      match buildEnv process_controller cfg with
      | (.error _, _) => none
      | (.ok uc, _) =>
          some (emuStart process_controller cfg
            (expected_ret_addr.getD STACK_MAGIC_RET_ADDR) wrapper_start_addr
            (wrapper_start_addr + 1024) engine uc)

/-- The Termination Oracle "halts emulation" on an invocation exactly when
the hook returns normally having requested `emu_stop`. -/
def hookHalts (uc : UcState) (address : Nat) (ud : ProcessController × Nat) : Bool :=
  match _unicorn_hook_block uc address ud with
  | (.ok s, _) => s.stopped
  | (.error _, _) => false

/-- A run result that exhausted the engine's events without an
oracle-requested stop: the emulation ran to the `until` bound. -/
def ranToBound : Option (RunOutcome × List TraceEv) → Bool
  | some (.halted s, _) => !s.stopped
  | _ => false

/-- Number of export-enumeration requests in an interaction log. -/
def countEnumerate (l : List TraceEv) : Nat :=
  l.countP (fun e => match e with | .enumerateExports => true | _ => false)

/-- The only mutating capability of the process-control service. -/
def evIsProcessWrite : TraceEv → Bool
  | .writeProcessMemory _ _ => true
  | _ => false

/-! ## Helper lemmas -/

/-- A log with no mutating interaction with the real process. -/
def CleanLog (l : List TraceEv) : Prop :=
  ∀ e ∈ l, evIsProcessWrite e = false

theorem cleanLog_nil : CleanLog [] := by
  intro e he
  cases he

theorem cleanLog_append {l1 l2 : List TraceEv} (h1 : CleanLog l1) (h2 : CleanLog l2) :
    CleanLog (l1 ++ l2) := by
  intro e he
  rcases List.mem_append.mp he with h | h
  · exact h1 e h
  · exact h2 e h

theorem archConfig_cases {arch : String} {cfg : ArchConfig}
    (h : archConfig arch = some cfg) : cfg = ia32Config ∨ cfg = x64Config := by
  unfold archConfig at h
  split at h
  · exact Or.inl (Option.some.inj h).symm
  · split at h
    · exact Or.inr (Option.some.inj h).symm
    · cases h

theorem archConfig_eq_none {arch : String} (h1 : arch ≠ "ia32") (h2 : arch ≠ "x64") :
    archConfig arch = none := by
  unfold archConfig
  rw [if_neg h1, if_neg h2]

theorem selectHookRegs_none_iff {arch : String} :
    selectHookRegs arch = none ↔ (arch ≠ "ia32" ∧ arch ≠ "x64") := by
  unfold selectHookRegs
  constructor
  · intro h
    by_cases h1 : arch = "ia32"
    · rw [if_pos h1] at h; cases h
    · rw [if_neg h1] at h
      by_cases h2 : arch = "x64"
      · rw [if_pos h2] at h; cases h
      · exact ⟨h1, h2⟩
  · intro ⟨h1, h2⟩
    rw [if_neg h1, if_neg h2]

theorem uc_mem_map_ok {uc : UcState} {base size perms : Nat} {s : UcState}
    (h : uc_mem_map uc base size perms = .ok s) :
    s = { uc with regions := (base, size, perms) :: uc.regions } ∧
    size ≠ 0 ∧
    (∀ r ∈ uc.regions, regionsOverlap base size r.1 r.2.1 = false) := by
  unfold uc_mem_map at h
  split at h
  · cases h
  · split at h
    · cases h
    · rename_i hsz hov
      refine ⟨(Except.ok.inj h).symm, hsz, ?_⟩
      intro r hr
      by_contra hcon
      exact hov (List.any_eq_true.mpr ⟨r, hr, by
        cases hx : regionsOverlap base size r.1 r.2.1
        · exact absurd hx hcon
        · rfl⟩)

theorem uc_mem_write_ok {uc : UcState} {addr : Nat} {bytes : List Nat} {s : UcState}
    (h : uc_mem_write uc addr bytes = .ok s) :
    s = { uc with mem := writeBytes uc.mem addr bytes } ∧
    ∀ i < bytes.length, (findRegion uc (addr + i)).isSome = true := by
  unfold uc_mem_write at h
  split at h
  · rename_i hall
    refine ⟨(Except.ok.inj h).symm, ?_⟩
    intro i hi
    exact List.all_eq_true.mp hall i (List.mem_range.mpr hi)
  · cases h

theorem findRegion_single (uc : UcState) (b sz p a : Nat)
    (hr : uc.regions = [(b, sz, p)])
    (h : (findRegion uc a).isSome = true) : b ≤ a ∧ a < b + sz := by
  unfold findRegion at h
  rw [hr] at h
  by_cases hc : (decide (b ≤ a) && decide (a < b + sz)) = true
  · simp only [Bool.and_eq_true, decide_eq_true_eq] at hc
    exact hc
  · rw [Bool.not_eq_true] at hc
    simp only [List.find?, hc] at h
    simp at h

theorem packPointer_some {p v : Nat} {bs : List Nat}
    (h : packPointer p v = some bs) :
    (p = 4 ∨ p = 8) ∧ bs = leBytes p v := by
  unfold packPointer at h
  split at h
  · rename_i hp
    exact ⟨hp, (Option.some.inj h).symm⟩
  · cases h

theorem packPointer_valid {p v : Nat} (hp : p = 4 ∨ p = 8) :
    packPointer p v = some (leBytes p v) := by
  unfold packPointer
  rw [if_pos hp]

theorem leBytes_length (n v : Nat) : (leBytes n v).length = n := by
  induction n generalizing v with
  | zero => rfl
  | succ m ih => simp [leBytes, ih]

theorem lookup_cons_ne {x a b : Nat} (mem : List (Nat × Nat)) (h : x ≠ a) :
    List.lookup x ((a, b) :: mem) = List.lookup x mem := by
  simp [List.lookup, beq_eq_false_iff_ne.mpr h]

theorem writeBytes_lookup_outside (bs : List Nat) (mem : List (Nat × Nat)) (a x : Nat)
    (hx : x < a ∨ a + bs.length ≤ x) :
    (writeBytes mem a bs).lookup x = mem.lookup x := by
  induction bs generalizing mem a with
  | nil => rfl
  | cons b rest ih =>
    simp only [writeBytes]
    rw [ih ((a, b) :: mem) (a + 1) (by simp at hx; omega)]
    exact lookup_cons_ne mem (by simp at hx; omega)

theorem writeBytes_lookup_inside (bs : List Nat) (mem : List (Nat × Nat)) (a i : Nat)
    (hi : i < bs.length) :
    (writeBytes mem a bs).lookup (a + i) = bs[i]? := by
  induction bs generalizing mem a i with
  | nil => cases hi
  | cons b rest ih =>
    simp only [writeBytes]
    cases i with
    | zero =>
        rw [writeBytes_lookup_outside rest ((a, b) :: mem) (a + 1) (a + 0) (by omega)]
        simp [List.lookup]
    | succ j =>
        have : a + (j + 1) = (a + 1) + j := by omega
        rw [this, ih ((a, b) :: mem) (a + 1) j (by simp at hi; omega)]
        simp

theorem range_map_getD (bs : List Nat) :
    (List.range bs.length).map (fun i => (bs[i]?).getD 0) = bs := by
  apply List.ext_getElem
  · simp
  · intro j h1 h2
    simp [List.getElem_range, List.getElem?_eq_getElem, h2]

theorem setup_teb_x86_ok {uc : UcState} {ctrl : ProcessController} {s : UcState}
    {l : List TraceEv} (h : _setup_teb_x86 uc ctrl = (.ok s, l)) :
    s = { regs := uc.regs,
          msrs := (0xC0000100, 0xff100000) :: uc.msrs,
          regions := (0xff200000, ctrl.page_size, UC_PROT_READ ||| UC_PROT_WRITE) ::
            (0xff100000, ctrl.page_size, UC_PROT_READ ||| UC_PROT_WRITE) :: uc.regions,
          mem := writeBytes (writeBytes uc.mem (0xff100000 + 0x18) (leBytes 4 0xff100000))
            (0xff100000 + 0x30) (leBytes 4 0xff200000),
          stopped := uc.stopped } ∧
    ctrl.page_size ≠ 0 ∧
    (∀ r ∈ uc.regions, regionsOverlap 0xff100000 ctrl.page_size r.1 r.2.1 = false) := by
  simp only [_setup_teb_x86] at h
  split at h
  · simp at h
  rename_i uc1 heq1
  split at h
  · simp at h
  rename_i uc2 heq2
  split at h
  · simp at h
  rename_i uc3 heq3
  split at h
  · simp at h
  rename_i uc4 heq4
  obtain ⟨huc1, hps0, hov⟩ := uc_mem_map_ok heq1
  have huc2 := (uc_mem_map_ok heq2).1
  have huc3 := (uc_mem_write_ok heq3).1
  have huc4 := (uc_mem_write_ok heq4).1
  obtain ⟨h1, h2⟩ := Prod.mk.injEq .. ▸ h
  have hs := Except.ok.inj h1
  subst huc1 huc2 huc3 huc4
  refine ⟨?_, hps0, hov⟩
  rw [← hs]
  rfl

theorem setup_teb_x64_ok {uc : UcState} {ctrl : ProcessController} {s : UcState}
    {l : List TraceEv} (h : _setup_teb_x64 uc ctrl = (.ok s, l)) :
    s = { regs := uc.regs,
          msrs := (0xC0000101, 0xff10000000000000) :: uc.msrs,
          regions := (0xff20000000000000, ctrl.page_size, UC_PROT_READ ||| UC_PROT_WRITE) ::
            (0xff10000000000000, ctrl.page_size, UC_PROT_READ ||| UC_PROT_WRITE) :: uc.regions,
          mem := writeBytes
            (writeBytes uc.mem (0xff10000000000000 + 0x30) (leBytes 8 0xff10000000000000))
            (0xff10000000000000 + 0x60) (leBytes 8 0xff20000000000000),
          stopped := uc.stopped } ∧
    ctrl.page_size ≠ 0 ∧
    (∀ r ∈ uc.regions, regionsOverlap 0xff10000000000000 ctrl.page_size r.1 r.2.1 = false) := by
  simp only [_setup_teb_x64] at h
  split at h
  · simp at h
  rename_i uc1 heq1
  split at h
  · simp at h
  rename_i uc2 heq2
  split at h
  · simp at h
  rename_i uc3 heq3
  split at h
  · simp at h
  rename_i uc4 heq4
  obtain ⟨huc1, hps0, hov⟩ := uc_mem_map_ok heq1
  have huc2 := (uc_mem_map_ok heq2).1
  have huc3 := (uc_mem_write_ok heq3).1
  have huc4 := (uc_mem_write_ok heq4).1
  obtain ⟨h1, h2⟩ := Prod.mk.injEq .. ▸ h
  have hs := Except.ok.inj h1
  subst huc1 huc2 huc3 huc4
  refine ⟨?_, hps0, hov⟩
  rw [← hs]
  rfl

theorem buildEnv_ok_ia32 {ctrl : ProcessController} {s : UcState} {l : List TraceEv}
    (h : buildEnv ctrl ia32Config = (.ok s, l)) :
    ∃ packed,
      packPointer ctrl.pointer_size STACK_MAGIC_RET_ADDR = some packed ∧
      s = { regs := [(UC_X86_REG_EBP, 0xff000000 + 3 * ctrl.page_size - ctrl.page_size),
                     (UC_X86_REG_ESP, 0xff000000 + 3 * ctrl.page_size - ctrl.page_size)],
            msrs := [(0xC0000100, 0xff100000)],
            regions := [(0xff200000, ctrl.page_size, UC_PROT_READ ||| UC_PROT_WRITE),
                        (0xff100000, ctrl.page_size, UC_PROT_READ ||| UC_PROT_WRITE),
                        (0xff000000, 3 * ctrl.page_size, UC_PROT_READ ||| UC_PROT_WRITE)],
            mem := writeBytes (writeBytes
              (writeBytes [] (0xff000000 + 3 * ctrl.page_size - ctrl.page_size) packed)
              (0xff100000 + 0x18) (leBytes 4 0xff100000))
              (0xff100000 + 0x30) (leBytes 4 0xff200000),
            stopped := false } ∧
      ctrl.page_size ≠ 0 ∧ packed.length ≤ ctrl.page_size ∧
      0xff000000 + 3 * ctrl.page_size ≤ 0xff100000 := by
  simp only [buildEnv, ia32Config] at h
  split at h
  · simp at h
  rename_i uc1 heq1
  split at h
  · simp at h
  rename_i packed hpk
  split at h
  · simp at h
  rename_i uc2 heq2
  split at h
  · simp at h
  rename_i uc5T logT heqT
  obtain ⟨huc1, hsz0, _⟩ := uc_mem_map_ok heq1
  obtain ⟨huc2, hwguard⟩ := uc_mem_write_ok heq2
  obtain ⟨huc5, hps0, hovT⟩ := setup_teb_x86_ok heqT
  obtain ⟨h1, h2⟩ := Prod.mk.injEq .. ▸ h
  have hs := Except.ok.inj h1
  have hlenps : packed.length ≤ ctrl.page_size := by
    by_contra hgt
    push_neg at hgt
    have hmem := hwguard ctrl.page_size (by omega)
    have hiv := findRegion_single uc1 0xff000000 (3 * ctrl.page_size)
      (UC_PROT_READ ||| UC_PROT_WRITE) _ (by rw [huc1]; simp [initUcState]) hmem
    omega
  subst huc1 huc2
  refine ⟨packed, hpk, ?_, hps0, hlenps, ?_⟩
  · rw [← hs, huc5]
    rfl
  · have := hovT (0xff000000, 3 * ctrl.page_size, UC_PROT_READ ||| UC_PROT_WRITE)
      (by simp [reg_write, initUcState])
    unfold regionsOverlap at this
    simp only [Bool.and_eq_false_iff, decide_eq_false_iff_not, not_lt] at this
    rcases this with h3 | h3 <;> omega

theorem buildEnv_ok_x64 {ctrl : ProcessController} {s : UcState} {l : List TraceEv}
    (h : buildEnv ctrl x64Config = (.ok s, l)) :
    ∃ packed,
      packPointer ctrl.pointer_size STACK_MAGIC_RET_ADDR = some packed ∧
      s = { regs := [(UC_X86_REG_RBP,
                      0xff00000000000000 + 3 * ctrl.page_size - ctrl.page_size),
                     (UC_X86_REG_RSP,
                      0xff00000000000000 + 3 * ctrl.page_size - ctrl.page_size)],
            msrs := [(0xC0000101, 0xff10000000000000)],
            regions := [(0xff20000000000000, ctrl.page_size, UC_PROT_READ ||| UC_PROT_WRITE),
                        (0xff10000000000000, ctrl.page_size, UC_PROT_READ ||| UC_PROT_WRITE),
                        (0xff00000000000000, 3 * ctrl.page_size,
                          UC_PROT_READ ||| UC_PROT_WRITE)],
            mem := writeBytes (writeBytes
              (writeBytes [] (0xff00000000000000 + 3 * ctrl.page_size - ctrl.page_size) packed)
              (0xff10000000000000 + 0x30) (leBytes 8 0xff10000000000000))
              (0xff10000000000000 + 0x60) (leBytes 8 0xff20000000000000),
            stopped := false } ∧
      ctrl.page_size ≠ 0 ∧ packed.length ≤ ctrl.page_size ∧
      0xff00000000000000 + 3 * ctrl.page_size ≤ 0xff10000000000000 := by
  simp only [buildEnv, x64Config] at h
  split at h
  · simp at h
  rename_i uc1 heq1
  split at h
  · simp at h
  rename_i packed hpk
  split at h
  · simp at h
  rename_i uc2 heq2
  split at h
  · simp at h
  rename_i uc5T logT heqT
  obtain ⟨huc1, hsz0, _⟩ := uc_mem_map_ok heq1
  obtain ⟨huc2, hwguard⟩ := uc_mem_write_ok heq2
  obtain ⟨huc5, hps0, hovT⟩ := setup_teb_x64_ok heqT
  obtain ⟨h1, h2⟩ := Prod.mk.injEq .. ▸ h
  have hs := Except.ok.inj h1
  have hlenps : packed.length ≤ ctrl.page_size := by
    by_contra hgt
    push_neg at hgt
    have hmem := hwguard ctrl.page_size (by omega)
    have hiv := findRegion_single uc1 0xff00000000000000 (3 * ctrl.page_size)
      (UC_PROT_READ ||| UC_PROT_WRITE) _ (by rw [huc1]; simp [initUcState]) hmem
    omega
  subst huc1 huc2
  refine ⟨packed, hpk, ?_, hps0, hlenps, ?_⟩
  · rw [← hs, huc5]
    rfl
  · have := hovT (0xff00000000000000, 3 * ctrl.page_size, UC_PROT_READ ||| UC_PROT_WRITE)
      (by simp [reg_write, initUcState])
    unfold regionsOverlap at this
    simp only [Bool.and_eq_false_iff, decide_eq_false_iff_not, not_lt] at this
    rcases this with h3 | h3 <;> omega

end Unlicense

namespace Unlicense

theorem findRegion_cons_miss {uc : UcState} {b sz p : Nat} {rs : List (Nat × Nat × Nat)}
    {a : Nat} (hregions : uc.regions = (b, sz, p) :: rs)
    (hmiss : ¬(b ≤ a ∧ a < b + sz)) :
    findRegion uc a =
      findRegion { uc with regions := rs } a := by
  unfold findRegion
  rw [hregions]
  simp only [List.find?]
  have : (decide (b ≤ a) && decide (a < b + sz)) = false := by
    simp only [Bool.and_eq_false_iff, decide_eq_false_iff_not]
    omega
  rw [this]

theorem stack_top_read (ps ptrn sb tb pb a1 a2 : Nat) (packed c1 c2 : List Nat)
    (rs ms : List (Nat × Nat)) (st : Bool)
    (hlen : packed.length = ptrn) (hlenps : packed.length ≤ ps)
    (hsep : sb + 3 * ps ≤ tb) (htpb : tb ≤ pb)
    (ha1 : tb ≤ a1) (ha2 : tb ≤ a2) :
    uc_mem_read
      { regs := rs, msrs := ms,
        regions := [(pb, ps, UC_PROT_READ ||| UC_PROT_WRITE),
                    (tb, ps, UC_PROT_READ ||| UC_PROT_WRITE),
                    (sb, 3 * ps, UC_PROT_READ ||| UC_PROT_WRITE)],
        mem := writeBytes (writeBytes (writeBytes [] (sb + 3 * ps - ps) packed) a1 c1) a2 c2,
        stopped := st }
      (sb + 3 * ps - ps) ptrn = .ok packed := by
  have hss : sb + 3 * ps - ps = sb + 2 * ps := by omega
  unfold uc_mem_read
  rw [if_pos]
  · rw [← hlen]
    refine congrArg Except.ok ?_
    have hval : ∀ i, i < packed.length →
        ((writeBytes (writeBytes (writeBytes [] (sb + 3 * ps - ps) packed) a1 c1) a2 c2).lookup
          (sb + 3 * ps - ps + i)).getD 0 = (packed[i]?).getD 0 := by
      intro i hi
      rw [writeBytes_lookup_outside c2 _ a2 _ (by omega),
        writeBytes_lookup_outside c1 _ a1 _ (by omega),
        writeBytes_lookup_inside packed [] _ i hi]
    calc (List.range packed.length).map
          (fun i =>
            ((writeBytes (writeBytes (writeBytes [] (sb + 3 * ps - ps) packed) a1 c1)
              a2 c2).lookup (sb + 3 * ps - ps + i)).getD 0)
        = (List.range packed.length).map (fun i => (packed[i]?).getD 0) := by
          apply List.map_congr_left
          intro i hi
          exact hval i (List.mem_range.mp hi)
      _ = packed := range_map_getD packed
  · rw [List.all_eq_true]
    intro i hi
    have hi8 : i < ptrn := List.mem_range.mp hi
    have hfind : findRegion
        { regs := rs, msrs := ms,
          regions := [(pb, ps, UC_PROT_READ ||| UC_PROT_WRITE),
                      (tb, ps, UC_PROT_READ ||| UC_PROT_WRITE),
                      (sb, 3 * ps, UC_PROT_READ ||| UC_PROT_WRITE)],
          mem := writeBytes (writeBytes (writeBytes [] (sb + 3 * ps - ps) packed) a1 c1) a2 c2,
          stopped := st } (sb + 3 * ps - ps + i) =
        some (sb, 3 * ps, UC_PROT_READ ||| UC_PROT_WRITE) := by
      unfold findRegion
      simp only [List.find?]
      have h1 : (decide (pb ≤ sb + 3 * ps - ps + i) &&
          decide (sb + 3 * ps - ps + i < pb + ps)) = false := by
        simp only [Bool.and_eq_false_iff, decide_eq_false_iff_not]
        omega
      have h2 : (decide (tb ≤ sb + 3 * ps - ps + i) &&
          decide (sb + 3 * ps - ps + i < tb + ps)) = false := by
        simp only [Bool.and_eq_false_iff, decide_eq_false_iff_not]
        omega
      have h3 : (decide (sb ≤ sb + 3 * ps - ps + i) &&
          decide (sb + 3 * ps - ps + i < sb + 3 * ps)) = true := by
        simp only [Bool.and_eq_true, decide_eq_true_eq]
        omega
      rw [h1, h2, h3]
    rw [hfind]
    rfl

end Unlicense

namespace Unlicense

/-! ## Concrete instances used by witnesses and counterexamples -/

/-- An ia32 controller whose process reads always succeed with NOP-filled
pages and which exports one ordinary function `"Foo"` at `0x405000`. -/
def nopCtrl : ProcessController :=
  { architecture := "ia32", page_size := 0x40, pointer_size := 4,
    read_process_memory := fun _ len => some (List.replicate len 0x90),
    exports := [(0x405000, "Foo")] }

/-- An ia32 controller whose process reads always fail. -/
def failCtrl : ProcessController :=
  { architecture := "ia32", page_size := 0x40, pointer_size := 4,
    read_process_memory := fun _ _ => none,
    exports := [] }

/-- An ia32 controller with succeeding reads and no exports at all. -/
def noExportsCtrl : ProcessController :=
  { architecture := "ia32", page_size := 0x40, pointer_size := 4,
    read_process_memory := fun _ len => some (List.replicate len 0x90),
    exports := [] }

/-- A controller reporting an architecture tag the resolver does not
support. -/
def armCtrl : ProcessController :=
  { architecture := "armv7", page_size := 0x40, pointer_size := 4,
    read_process_memory := fun _ _ => none,
    exports := [(0x5000, "Foo")] }

/-- The environment state `resolve_wrapped_api` builds for `nopCtrl`
(defined as the successful result of `buildEnv`, which does not receive the
`expected_ret_addr` argument at all). -/
def c2wS : UcState :=
  match (buildEnv nopCtrl ia32Config).1 with
  | .ok s => s
  | .error _ => initUcState

/-- The interaction log of that construction. -/
def c2wL : List TraceEv := (buildEnv nopCtrl ia32Config).2

/-! ## C2 -/

/-- C2, amended: when `resolve_wrapped_api` builds the environment, the
`STACK_MAGIC_RET_ADDR` sentinel is written at the stack's usable top as the
synthetic return address *unconditionally* — the environment construction
does not depend on whether a caller-supplied expected return address is
present (it is not an input of `buildEnv`) — and the stack-pointer and
frame-pointer registers are both set to that top.  (The original claim's
"exactly when no expected return address is supplied" fails; see the
counterexample.) -/
theorem c2_sentinel_unconditional (ctrl : ProcessController) (cfg : ArchConfig)
    (s : UcState) (l : List TraceEv) (packed : List Nat)
    (harch : archConfig ctrl.architecture = some cfg)
    (hok : buildEnv ctrl cfg = (.ok s, l))
    (hpack : packPointer ctrl.pointer_size STACK_MAGIC_RET_ADDR = some packed) :
    uc_mem_read s (cfg.stack_addr + 3 * ctrl.page_size - ctrl.page_size)
        ctrl.pointer_size = .ok packed ∧
    reg_read s cfg.sp_register = cfg.stack_addr + 3 * ctrl.page_size - ctrl.page_size ∧
    reg_read s cfg.bp_register = cfg.stack_addr + 3 * ctrl.page_size - ctrl.page_size := by
  rcases archConfig_cases harch with hcfg | hcfg <;> subst hcfg
  · obtain ⟨pk, hpk, hsEq, hps0, hlenps, hsep⟩ := buildEnv_ok_ia32 hok
    have hpe : pk = packed := Option.some.inj (hpk.symm.trans hpack)
    subst hpe
    obtain ⟨hp48, hpkval⟩ := packPointer_some hpk
    have hlen : pk.length = ctrl.pointer_size := by
      rw [hpkval, leBytes_length]
    subst hsEq
    refine ⟨?_, ?_, ?_⟩
    · exact stack_top_read ctrl.page_size ctrl.pointer_size 0xff000000 0xff100000
        0xff200000 (0xff100000 + 0x18) (0xff100000 + 0x30) pk
        (leBytes 4 0xff100000) (leBytes 4 0xff200000) _ _ false
        hlen hlenps hsep (by omega) (by omega) (by omega)
    · simp [reg_read, List.lookup, ia32Config, UC_X86_REG_ESP, UC_X86_REG_EBP]
    · simp [reg_read, List.lookup, ia32Config, UC_X86_REG_ESP, UC_X86_REG_EBP]
  · obtain ⟨pk, hpk, hsEq, hps0, hlenps, hsep⟩ := buildEnv_ok_x64 hok
    have hpe : pk = packed := Option.some.inj (hpk.symm.trans hpack)
    subst hpe
    obtain ⟨hp48, hpkval⟩ := packPointer_some hpk
    have hlen : pk.length = ctrl.pointer_size := by
      rw [hpkval, leBytes_length]
    subst hsEq
    refine ⟨?_, ?_, ?_⟩
    · exact stack_top_read ctrl.page_size ctrl.pointer_size 0xff00000000000000
        0xff10000000000000 0xff20000000000000 (0xff10000000000000 + 0x30)
        (0xff10000000000000 + 0x60) pk
        (leBytes 8 0xff10000000000000) (leBytes 8 0xff20000000000000) _ _ false
        hlen hlenps hsep (by omega) (by omega) (by omega)
    · simp [reg_read, List.lookup, x64Config, UC_X86_REG_RSP, UC_X86_REG_RBP]
    · simp [reg_read, List.lookup, x64Config, UC_X86_REG_RSP, UC_X86_REG_RBP]

set_option maxRecDepth 4000 in
/-- C2, counterexample to the claim as stated.  `nopCtrl`'s resolution is
called *with* a caller-supplied expected return address (`0x9999`), so per
the claim the sentinel should not be written at the stack's usable top.
Yet (second conjunct) the environment the call builds — `buildEnv`, which
is independent of the expected-return-address argument — holds the packed
sentinel `0xdeadbeef` at the stack top `0xff002000`, and (first conjunct)
the very resolution observably stops at the export because the sentinel
return address is found on the stack, returning the export's address. -/
theorem c2_sentinel_counterexample :
    (resolve_wrapped_api 0x400000 nopCtrl (some 0x9999) [UcEvent.block 0x405000]).1 =
      .ok (some 0x405000) ∧
    Except.map (fun s => uc_mem_read s 0xff000080 4) (buildEnv nopCtrl ia32Config).1 =
      .ok (.ok [0xef, 0xbe, 0xad, 0xde]) := by
  exact ⟨by decide, by decide⟩

/-- Witness for C2 (amended): concrete evaluation on `nopCtrl`'s
environment. -/
theorem c2_sentinel_unconditional_witness :
    uc_mem_read c2wS 0xff000080 4 = .ok [0xef, 0xbe, 0xad, 0xde] ∧
    reg_read c2wS UC_X86_REG_ESP = 0xff000080 ∧
    reg_read c2wS UC_X86_REG_EBP = 0xff000080 :=
  c2_sentinel_unconditional nopCtrl ia32Config c2wS c2wL
    [0xef, 0xbe, 0xad, 0xde] rfl rfl rfl

end Unlicense

namespace Unlicense

/-! ## C1 -/

/-- C1, amended: on a basic-block hook invocation (with a supported
architecture tag, emulation not already stopping, and the pointer-sized
stack-top read succeeding and decoding to `ret_addr`), the Termination
Oracle halts emulation if and only if the reached block address is a known
export and either (a) the return address read from the current stack
pointer equals the active stop condition `stop_on`, or (a') that return
address equals the sentinel `STACK_MAGIC_RET_ADDR` — also when a
caller-supplied expected return address, not the sentinel, is the active
stop condition — or (b) the reached export's name is in the fixed
non-returning set.  Clause (a') is the amendment the code forces: line 161
tests `ret_addr == stop_on_ret_addr or ret_addr == STACK_MAGIC_RET_ADDR`. -/
theorem c1_oracle_halt_iff_amended (uc : UcState) (address stop_on : Nat)
    (ctrl : ProcessController) (regPair : Nat × Nat) (bs : List Nat) (ret_addr : Nat)
    (hstop : uc.stopped = false)
    (hregs : selectHookRegs ctrl.architecture = some regPair)
    (hread : uc_mem_read uc (reg_read uc regPair.2) ctrl.pointer_size = .ok bs)
    (hdec : unpackPointer ctrl.pointer_size bs = some ret_addr) :
    hookHalts uc address (ctrl, stop_on) = true ↔
      ∃ nm, ctrl.exports.lookup address = some nm ∧
        (ret_addr = stop_on ∨ ret_addr = STACK_MAGIC_RET_ADDR ∨
          _is_no_return_api nm = true) := by
  unfold hookHalts _unicorn_hook_block
  cases hlk : ctrl.exports.lookup address with
  | none =>
      simp only [hlk]
      simp [hstop]
  | some nm =>
      simp only [hlk, hregs, hread, hdec]
      by_cases hc : ret_addr = stop_on ∨ ret_addr = STACK_MAGIC_RET_ADDR
      · rw [if_pos hc]
        simp only [emu_stop]
        simp
        exact hc.imp id Or.inl
      · rw [if_neg hc]
        by_cases hn : _is_no_return_api nm = true
        · rw [if_pos hn]
          simp only [emu_stop]
          simp [hn]
        · rw [if_neg hn]
          simp only [hstop]
          simp only [Bool.not_eq_true] at hn
          push_neg at hc
          simp [hc.1, hc.2, hn]

/-- The emulator state of C1's concrete hook invocations: ESP points at a
mapped 64-byte region whose first four bytes hold the little-endian
sentinel `0xdeadbeef`. -/
def c1uc : UcState :=
  { regs := [(UC_X86_REG_ESP, 0x8000)], msrs := [],
    regions := [(0x8000, 0x40, UC_PROT_READ ||| UC_PROT_WRITE)],
    mem := writeBytes [] 0x8000 (leBytes 4 0xdeadbeef), stopped := false }

/-- The controller of C1's counterexample: one ordinary (returning) export
`"Foo"`. -/
def c1ctrl : ProcessController :=
  { architecture := "ia32", page_size := 0x40, pointer_size := 4,
    read_process_memory := fun _ _ => none, exports := [(0x5000, "Foo")] }

/-- C1, counterexample to the claim as stated.  The resolution's caller
supplied an expected return address, so the active stop condition is
`0x9999`; the reached block `0x5000` is the known export `"Foo"`, which is
not in the non-returning set; the return address on the stack is the
sentinel `0xdeadbeef ≠ 0x9999`.  Per the claim the oracle must not halt —
but the hook halts emulation (first conjunct), because the source also
stops whenever the read return address equals the sentinel. -/
theorem c1_oracle_counterexample :
    hookHalts c1uc 0x5000 (c1ctrl, 0x9999) = true ∧
    c1ctrl.exports.lookup 0x5000 = some "Foo" ∧
    uc_mem_read c1uc (reg_read c1uc UC_X86_REG_ESP) c1ctrl.pointer_size =
      .ok [0xef, 0xbe, 0xad, 0xde] ∧
    unpackPointer 4 [0xef, 0xbe, 0xad, 0xde] = some 0xdeadbeef ∧
    ((0xdeadbeef : Nat) = 0x9999 ∨ _is_no_return_api "Foo" = true → False) := by
  exact ⟨by decide, by decide, by decide, by decide, by decide⟩

/-- The controller of C1's witness: the reached export is the
process-terminating API `"ExitProcess"`, and the stack top decodes to
`0x7777`, matching neither the stop condition `0x9999` nor the sentinel. -/
def c1wctrl : ProcessController :=
  { architecture := "ia32", page_size := 0x40, pointer_size := 4,
    read_process_memory := fun _ _ => none, exports := [(0x5000, "ExitProcess")] }

/-- The emulator state of C1's witness invocation. -/
def c1wuc : UcState :=
  { regs := [(UC_X86_REG_ESP, 0x8000)], msrs := [],
    regions := [(0x8000, 0x40, UC_PROT_READ ||| UC_PROT_WRITE)],
    mem := writeBytes [] 0x8000 (leBytes 4 0x7777), stopped := false }

/-- Witness for C1 (amended): the non-returning clause fires on a concrete
invocation. -/
theorem c1_oracle_halt_iff_amended_witness :
    hookHalts c1wuc 0x5000 (c1wctrl, 0x9999) = true :=
  (c1_oracle_halt_iff_amended c1wuc 0x5000 0x9999 c1wctrl
    (UC_X86_REG_EIP, UC_X86_REG_ESP) [0x77, 0x77, 0, 0] 0x7777
    rfl rfl (by decide) rfl).mpr
    ⟨"ExitProcess", rfl, Or.inr (Or.inr (by decide))⟩

end Unlicense

namespace Unlicense

/-! ## C5 -/

/-- C5, amended: the Memory Bridge declines outright when the faulting
address is exactly the null address — it reports failure to the engine and
leaves the address space unchanged, mapping nothing.  (The original claim's
"never succeeds in mapping the page containing address 0" fails for nonzero
faulting addresses inside the first page; see the counterexample.) -/
theorem c5_null_address_declined (uc : UcState) (ctrl : ProcessController) :
    _unicorn_hook_unmapped uc 0 ctrl = ((false, uc), []) := rfl

/-- C5, counterexample to the claim as stated: a faulting address of `4` —
nonzero, hence past the null-address guard — aligns down to `0`, and when
the real-process read succeeds the handler maps the page containing the
null address with full permissions and reports success. -/
theorem c5_null_page_counterexample :
    (_unicorn_hook_unmapped initUcState 4 nopCtrl).1.1 = true ∧
    findRegion (_unicorn_hook_unmapped initUcState 4 nopCtrl).1.2 0 =
      some (0, 0x40, UC_PROT_ALL) := by
  exact ⟨by decide, by decide⟩

/-! ## C6 -/

theorem block_hook_log (uc : UcState) (address : Nat) (ud : ProcessController × Nat) :
    (_unicorn_hook_block uc address ud).2 =
      [.getPointerSize, .getArchitecture, .enumerateExports] := by
  simp only [_unicorn_hook_block]
  repeat' first | rfl | split

/-- C6, amended: the export mapping consulted by the Termination Oracle is
requested from the process-control service anew on *every* basic-block hook
invocation — exactly one enumeration request per invocation — rather than
once at hook-install time (hook installation performs no enumeration). -/
theorem c6_enumerate_once_per_block_hook (uc : UcState) (address : Nat)
    (ud : ProcessController × Nat) :
    countEnumerate (_unicorn_hook_block uc address ud).2 = 1 := by
  rw [block_hook_log]
  rfl

set_option maxRecDepth 4000 in
/-- C6, counterexample to the claim as stated: a resolution whose engine
reports two basic blocks (neither a known export) performs two export
enumerations — one per block-hook invocation — not exactly one at
hook-install time. -/
theorem c6_enumerate_counterexample :
    countEnumerate (resolve_wrapped_api 0x400000 noExportsCtrl none
      [UcEvent.block 0x400010, UcEvent.block 0x400020]).2 = 2 := by decide

/-! ## C7 -/

theorem buildEnv_log_head (ctrl : ProcessController) (cfg : ArchConfig) :
    ∃ t, (buildEnv ctrl cfg).2 = TraceEv.ucCreate :: t := by
  simp only [buildEnv]
  split
  · exact ⟨_, rfl⟩
  · split
    · exact ⟨_, rfl⟩
    · split
      · exact ⟨_, rfl⟩
      · split
        · exact ⟨_, rfl⟩
        · exact ⟨_, rfl⟩

/-- C7: for every architecture tag other than the two supported x86 tags,
`resolve_wrapped_api` raises the fatal configuration error
(`NotImplementedError`) and aborts with an interaction log of exactly one
architecture query — in particular no emulator instance is created
(`ucCreate` never logged) and no memory is mapped (`ucMemMap` never
logged) — while for the two supported tags the call proceeds past the
dispatch and does create the emulator instance. -/
theorem c7_unsupported_arch_aborts (wrapper_start_addr : Nat)
    (ctrl : ProcessController) (expected_ret_addr : Option Nat)
    (engine : List UcEvent) :
    (ctrl.architecture ≠ "ia32" ∧ ctrl.architecture ≠ "x64" →
      resolve_wrapped_api wrapper_start_addr ctrl expected_ret_addr engine =
        (.error .notImplemented, [.getArchitecture])) ∧
    ((ctrl.architecture = "ia32" ∨ ctrl.architecture = "x64") →
      TraceEv.ucCreate ∈
        (resolve_wrapped_api wrapper_start_addr ctrl expected_ret_addr engine).2) := by
  constructor
  · intro h12
    unfold resolve_wrapped_api
    rw [archConfig_eq_none h12.1 h12.2]
  · intro h12
    have hcfg : ∃ cfg, archConfig ctrl.architecture = some cfg := by
      rcases h12 with h | h <;> rw [h] <;> exact ⟨_, rfl⟩
    rcases hcfg with ⟨cfg, hcfg⟩
    rcases buildEnv_log_head ctrl cfg with ⟨t, ht⟩
    unfold resolve_wrapped_api
    split
    · rename_i heq
      rw [hcfg] at heq
      cases heq
    · rename_i cfg2 heq
      rw [hcfg] at heq
      have hc2 : cfg = cfg2 := Option.some.inj heq
      subst hc2
      split
      · rename_i l heq2
        have hl : l = TraceEv.ucCreate :: t := by
          rw [← ht, heq2]
        rw [hl]
        simp
      · rename_i l heq2
        have hl : l = TraceEv.ucCreate :: t := by
          rw [← ht, heq2]
        rw [hl]
        simp
      · rename_i uc l heq2
        have hl : l = TraceEv.ucCreate :: t := by
          rw [← ht, heq2]
        rw [hl]
        split <;> simp

/-- Witness for C7: concrete evaluation on the unsupported tag `"armv7"`
and on the supported tag `"ia32"`. -/
theorem c7_unsupported_arch_aborts_witness :
    resolve_wrapped_api 5 armCtrl none [] =
      (.error .notImplemented, [.getArchitecture]) ∧
    TraceEv.ucCreate ∈ (resolve_wrapped_api 5 failCtrl none []).2 :=
  ⟨(c7_unsupported_arch_aborts 5 armCtrl none []).1 (by decide),
   (c7_unsupported_arch_aborts 5 failCtrl none []).2 (Or.inl rfl)⟩

/-! ## C9 -/

/-- C9: `resolve_wrapped_api` is deterministic.  Two calls with the same
wrapper start address, the same expected-return-address argument, a
process-control service reporting the same architecture, page size,
pointer size, memory contents and export mapping, and the (deterministic)
engine behaving the same, return identical results. -/
theorem c9_resolution_deterministic (wrapper_start_addr : Nat)
    (ctrl1 ctrl2 : ProcessController) (expected_ret_addr : Option Nat)
    (engine : List UcEvent)
    (ha : ctrl1.architecture = ctrl2.architecture)
    (hp : ctrl1.page_size = ctrl2.page_size)
    (hq : ctrl1.pointer_size = ctrl2.pointer_size)
    (hr : ctrl1.read_process_memory = ctrl2.read_process_memory)
    (he : ctrl1.exports = ctrl2.exports) :
    resolve_wrapped_api wrapper_start_addr ctrl1 expected_ret_addr engine =
      resolve_wrapped_api wrapper_start_addr ctrl2 expected_ret_addr engine := by
  have hc : ctrl1 = ctrl2 := by
    cases ctrl1
    cases ctrl2
    simp_all
  rw [hc]

/-- A controller extensionally equal to `failCtrl` but a distinct
definition, for C9's witness. -/
def c9bCtrl : ProcessController :=
  { architecture := "ia32", page_size := 0x40, pointer_size := 4,
    read_process_memory := fun _ _ => none,
    exports := [] }

/-- Witness for C9: two calls with field-for-field identical controllers
return identical results. -/
theorem c9_resolution_deterministic_witness :
    resolve_wrapped_api 7 failCtrl none [] = resolve_wrapped_api 7 c9bCtrl none [] :=
  c9_resolution_deterministic 7 failCtrl c9bCtrl none [] rfl rfl rfl rfl rfl

/-! ## C10 -/

/-- C10: under the precondition that the controller's architecture tag is
one of the two supported tags, the block hook's register selection is
exhaustive (both register variables defined); for any other tag the
selection is undefined and the hook, upon reaching a known export, fails
with the undefined-variable error (`NameError`) — but that state is
unreachable in a resolution, because `resolve_wrapped_api` aborts with the
configuration error before installing any hook. -/
theorem c10_hook_registers_total (ctrl : ProcessController)
    (wrapper_start_addr : Nat) (expected_ret_addr : Option Nat)
    (engine : List UcEvent) (uc : UcState) (address stop_on : Nat) :
    ((ctrl.architecture = "ia32" ∨ ctrl.architecture = "x64") →
      (selectHookRegs ctrl.architecture).isSome = true) ∧
    (selectHookRegs ctrl.architecture = none →
      (∀ nm, ctrl.exports.lookup address = some nm →
        (_unicorn_hook_block uc address (ctrl, stop_on)).1 = .error (.py .nameError)) ∧
      (resolve_wrapped_api wrapper_start_addr ctrl expected_ret_addr engine).1 =
        .error .notImplemented) := by
  constructor
  · intro h
    rcases h with h | h <;> rw [h] <;> rfl
  · intro hnone
    obtain ⟨h1, h2⟩ := selectHookRegs_none_iff.mp hnone
    constructor
    · intro nm hnm
      unfold _unicorn_hook_block
      simp only [hnm, hnone]
    · unfold resolve_wrapped_api
      rw [archConfig_eq_none h1 h2]

/-- Witness for C10: the supported tag `"ia32"` selects registers; the
unsupported tag of `armCtrl` makes the hook fail on its export and makes
the resolver abort. -/
theorem c10_hook_registers_total_witness :
    (selectHookRegs failCtrl.architecture).isSome = true ∧
    (_unicorn_hook_block initUcState 0x5000 (armCtrl, 0x9999)).1 =
      .error (.py .nameError) ∧
    (resolve_wrapped_api 5 armCtrl none []).1 = .error .notImplemented :=
  ⟨(c10_hook_registers_total failCtrl 5 none [] initUcState 0x5000 0x9999).1
      (Or.inl rfl),
   ((c10_hook_registers_total armCtrl 5 none [] initUcState 0x5000 0x9999).2
      rfl).1 "Foo" rfl,
   ((c10_hook_registers_total armCtrl 5 none [] initUcState 0x5000 0x9999).2
      rfl).2⟩

end Unlicense

namespace Unlicense

/-! ## Run-outcome agreement between `resolveRun` and `resolve_wrapped_api` -/

theorem resolve_of_run (w : Nat) (ctrl : ProcessController) (e : Option Nat)
    (engine : List UcEvent) (cfg : ArchConfig) (out : RunOutcome) (l : List TraceEv)
    (harch : archConfig ctrl.architecture = some cfg)
    (hrun : resolveRun w ctrl e engine = some (out, l)) :
    (resolve_wrapped_api w ctrl e engine).1 =
      (match out with
       | .halted s => .ok (some (reg_read s cfg.pc_register))
       | .ucError _ => .ok none
       | .pyError ex _ => .error ex) := by
  unfold resolveRun at hrun
  split at hrun
  · cases hrun
  · rename_i cfg2 heq
    split at hrun
    · cases hrun
    · rename_i uc l0 heq2
      have hemu := Option.some.inj hrun
      have hcc : cfg = cfg2 := by
        rw [harch] at heq
        exact Option.some.inj heq
      subst hcc
      unfold resolve_wrapped_api
      split
      · rename_i heq3
        rw [harch] at heq3
        cases heq3
      · rename_i cfg3 heq3
        have hc3 : cfg = cfg3 := by
          rw [harch] at heq3
          exact Option.some.inj heq3
        subst hc3
        split
        · rename_i l1 heq4
          rw [heq2] at heq4
          simp at heq4
        · rename_i l1 heq4
          rw [heq2] at heq4
          simp at heq4
        · rename_i uc2 l1 heq4
          rw [heq2] at heq4
          have hu2 : uc = uc2 := by
            have := congrArg Prod.fst heq4
            exact Except.ok.inj this
          subst hu2
          rw [hemu]
          cases out <;> rfl

end Unlicense

namespace Unlicense

/-! ## C4 -/

/-- C4, amended: when the emulation run halts cleanly — including the case
where the engine exhausts the bounded instruction/address safety window
without the Termination Oracle requesting a stop — `resolve_wrapped_api`
returns the final program-counter value (for the bound case, the bound
address `wrapper_start_addr + 1024`), *not* "no result". -/
theorem c4_bound_returns_pc (wrapper_start_addr : Nat) (ctrl : ProcessController)
    (expected_ret_addr : Option Nat) (engine : List UcEvent) (cfg : ArchConfig)
    (s : UcState) (l : List TraceEv)
    (harch : archConfig ctrl.architecture = some cfg)
    (hrun : resolveRun wrapper_start_addr ctrl expected_ret_addr engine =
      some (.halted s, l))
    (_hbound : s.stopped = false) :
    (resolve_wrapped_api wrapper_start_addr ctrl expected_ret_addr engine).1 =
      .ok (some (reg_read s cfg.pc_register)) :=
  resolve_of_run wrapper_start_addr ctrl expected_ret_addr engine cfg
    (.halted s) l harch hrun

/-- The run `resolve_wrapped_api 0x400000 noExportsCtrl none []` performs:
the engine maps the wrapper page on the first fetch and then reports no
events, i.e. it ran to the bound. -/
def c4run : Option (RunOutcome × List TraceEv) :=
  resolveRun 0x400000 noExportsCtrl none []

/-- Final emulator state of that run. -/
def c4s : UcState :=
  match c4run with
  | some (.halted s, _) => s
  | _ => initUcState

/-- Interaction log of that run. -/
def c4l : List TraceEv :=
  match c4run with
  | some (_, l) => l
  | none => []

set_option maxRecDepth 4000 in
/-- C4, counterexample to the claim as stated: a resolution whose run
exhausts the bounded safety window without any oracle stop (first
conjunct) returns the program-counter value `0x400400` — the bound address
`wrapper_start + 1024` — and not "no result" (second conjunct). -/
theorem c4_bound_counterexample :
    ranToBound (resolveRun 0x400000 noExportsCtrl none []) = true ∧
    (resolve_wrapped_api 0x400000 noExportsCtrl none []).1 = .ok (some 0x400400) := by
  exact ⟨by decide, by decide⟩

set_option maxRecDepth 4000 in
/-- Witness for C4 (amended), at the bound-exhausting run of `c4run`. -/
theorem c4_bound_returns_pc_witness :
    (resolve_wrapped_api 0x400000 noExportsCtrl none []).1 =
      .ok (some (reg_read c4s ia32Config.pc_register)) ∧
    reg_read c4s ia32Config.pc_register = 0x400400 ∧
    c4s.stopped = false :=
  ⟨c4_bound_returns_pc 0x400000 noExportsCtrl none [] ia32Config c4s c4l
      rfl (by decide) (by decide),
   by decide, by decide⟩

/-! ## C3 -/

theorem hook_unmapped_read_none (uc : UcState) (a : Nat) (ctrl : ProcessController)
    (hread : ∀ x len, ctrl.read_process_memory x len = none) :
    (_unicorn_hook_unmapped uc a ctrl).1.1 = false := by
  simp only [_unicorn_hook_unmapped]
  split
  · rfl
  · rw [hread]

theorem fetch_fails_no_exec (ctrl : ProcessController) (uc : UcState) (a : Nat)
    (hperm : ∀ r ∈ uc.regions, r.2.2 = UC_PROT_READ ||| UC_PROT_WRITE)
    (hread : ∀ x len, ctrl.read_process_memory x len = none) :
    (fetchAt ctrl uc a).1.1 = false := by
  unfold fetchAt
  split
  · rename_i r heq
    have hr : r ∈ uc.regions := by
      unfold findRegion at heq
      exact List.mem_of_find?_eq_some heq
    rw [hperm r hr]
    rfl
  · split
    · rfl
    · rename_i uc1 l hh
      have := hook_unmapped_read_none uc a ctrl hread
      rw [hh] at this
      cases this

theorem emuStart_fetch_fail (ctrl : ProcessController) (cfg : ArchConfig)
    (stop_on b u : Nat) (engine : List UcEvent) (uc : UcState)
    (hf : (fetchAt ctrl uc b).1.1 = false) :
    ∃ s l, emuStart ctrl cfg stop_on b u engine uc = (.ucError s, l) := by
  unfold emuStart
  split
  · rename_i uc1 l heq
    exact ⟨uc1, l, rfl⟩
  · rename_i uc1 l heq
    rw [heq] at hf
    cases hf

theorem buildEnv_structError {ctrl : ProcessController} {cfg : ArchConfig}
    {l : List TraceEv} (h : buildEnv ctrl cfg = (.error .structError, l)) :
    packPointer ctrl.pointer_size STACK_MAGIC_RET_ADDR = none := by
  simp only [buildEnv] at h
  split at h
  · simp at h
  · split at h
    · rename_i hpk
      exact hpk
    · split at h
      · simp at h
      · split at h
        · simp at h
        · simp at h

/-- C3: (first conjunct) for every process-control service each of whose
memory reads fails, and for every engine event sequence,
`resolve_wrapped_api` returns "no result" (`None`) — the run dies on the
first instruction fetch, whose page can never be brought in — and (second
conjunct) more generally, whenever the engine run ends in an internal
fault (`UcError`), `resolve_wrapped_api` returns `None` rather than
propagating the low-level fault.  The hypotheses restrict to a supported
architecture tag and a contract-conforming pointer size (4 or 8 bytes),
the preconditions under which a resolution reaches emulation at all. -/
theorem c3_fault_returns_none (wrapper_start_addr : Nat) (ctrl : ProcessController)
    (expected_ret_addr : Option Nat) (engine : List UcEvent) (cfg : ArchConfig)
    (harch : archConfig ctrl.architecture = some cfg)
    (hptr : ctrl.pointer_size = 4 ∨ ctrl.pointer_size = 8) :
    ((∀ a len, ctrl.read_process_memory a len = none) →
      (resolve_wrapped_api wrapper_start_addr ctrl expected_ret_addr engine).1 =
        .ok none) ∧
    (∀ s l, resolveRun wrapper_start_addr ctrl expected_ret_addr engine =
        some (.ucError s, l) →
      (resolve_wrapped_api wrapper_start_addr ctrl expected_ret_addr engine).1 =
        .ok none) := by
  constructor
  · intro hread
    unfold resolve_wrapped_api
    split
    · rename_i heq
      rw [harch] at heq
      cases heq
    · rename_i cfg2 heq
      have hcc : cfg = cfg2 := by
        rw [harch] at heq
        exact Option.some.inj heq
      subst hcc
      split
      · rfl
      · rename_i l heq2
        have hnone := buildEnv_structError heq2
        rw [packPointer_valid hptr] at hnone
        cases hnone
      · rename_i uc l heq2
        have hperm : ∀ r ∈ uc.regions, r.2.2 = UC_PROT_READ ||| UC_PROT_WRITE := by
          rcases archConfig_cases harch with hcf | hcf <;> subst hcf
          · obtain ⟨pk, hpk, hsEq, _, _, _⟩ := buildEnv_ok_ia32 heq2
            rw [hsEq]
            intro r hr
            simp at hr
            rcases hr with h | h | h <;> rw [h]
          · obtain ⟨pk, hpk, hsEq, _, _, _⟩ := buildEnv_ok_x64 heq2
            rw [hsEq]
            intro r hr
            simp at hr
            rcases hr with h | h | h <;> rw [h]
        have hf := fetch_fails_no_exec ctrl uc wrapper_start_addr hperm hread
        obtain ⟨s2, l2, hemu⟩ := emuStart_fetch_fail ctrl cfg
          (expected_ret_addr.getD STACK_MAGIC_RET_ADDR) wrapper_start_addr
          (wrapper_start_addr + 1024) engine uc hf
        rw [hemu]
  · intro s l hrun
    exact resolve_of_run wrapper_start_addr ctrl expected_ret_addr engine cfg
      (.ucError s) l harch hrun

/-- Witness for C3: the always-failing `failCtrl`, on an empty engine
sequence: `resolve` returns `None`. -/
theorem c3_fault_returns_none_witness :
    (resolve_wrapped_api 0x400000 failCtrl none []).1 = .ok none :=
  (c3_fault_returns_none 0x400000 failCtrl none [] ia32Config rfl
    (Or.inl rfl)).1 (fun _ _ => rfl)

end Unlicense

namespace Unlicense

/-! ## C8 -/

theorem cleanLog_cons {x : TraceEv} {l : List TraceEv}
    (hx : evIsProcessWrite x = false) (hl : CleanLog l) : CleanLog (x :: l) := by
  intro e he
  rcases List.mem_cons.mp he with rfl | he
  · exact hx
  · exact hl e he

theorem hook_unmapped_clean (uc : UcState) (a : Nat) (ctrl : ProcessController) :
    CleanLog (_unicorn_hook_unmapped uc a ctrl).2 := by
  simp only [_unicorn_hook_unmapped]
  split
  · exact cleanLog_nil
  · split
    · simp [CleanLog, evIsProcessWrite]
    · split
      · simp [CleanLog, evIsProcessWrite]
      · split
        · simp [CleanLog, evIsProcessWrite]
        · simp [CleanLog, evIsProcessWrite]

theorem cleanLog_block : CleanLog
    [TraceEv.getPointerSize, TraceEv.getArchitecture, TraceEv.enumerateExports] := by
  simp [CleanLog, evIsProcessWrite]

theorem block_hook_clean (uc : UcState) (address : Nat)
    (ud : ProcessController × Nat) :
    CleanLog (_unicorn_hook_block uc address ud).2 := by
  rw [block_hook_log]
  exact cleanLog_block

theorem fetchAt_clean (ctrl : ProcessController) (uc : UcState) (a : Nat) :
    CleanLog (fetchAt ctrl uc a).2 := by
  unfold fetchAt
  split
  · exact cleanLog_nil
  · split
    · rename_i uc1 l heq
      have h := hook_unmapped_clean uc a ctrl
      rw [heq] at h
      exact h
    · rename_i uc1 l heq
      have h := hook_unmapped_clean uc a ctrl
      rw [heq] at h
      split <;> exact h

theorem runEvents_clean (ctrl : ProcessController) (cfg : ArchConfig)
    (stop_on untilAddr : Nat) (events : List UcEvent) (uc : UcState) :
    CleanLog (runEvents ctrl cfg stop_on untilAddr events uc).2 := by
  induction events generalizing uc with
  | nil =>
      simp only [runEvents]
      split <;> exact cleanLog_nil
  | cons e rest ih =>
      cases e with
      | writeReg r v =>
          simp only [runEvents]
          split
          · exact cleanLog_nil
          · exact ih _
      | writeMem a bs =>
          simp only [runEvents]
          split
          · exact cleanLog_nil
          · exact ih _
      | internalFault =>
          simp only [runEvents]
          split <;> exact cleanLog_nil
      | unmapped a =>
          simp only [runEvents]
          split
          · exact cleanLog_nil
          · split
            · rename_i uc1 l heq
              have h := hook_unmapped_clean uc a ctrl
              rw [heq] at h
              exact cleanLog_append h (ih uc1)
            · rename_i uc1 l heq
              have h := hook_unmapped_clean uc a ctrl
              rw [heq] at h
              exact h
      | block a =>
          simp only [runEvents]
          split
          · exact cleanLog_nil
          · split
            · rename_i uc1 l heq
              have h := fetchAt_clean ctrl uc a
              rw [heq] at h
              exact h
            · rename_i uc1 l heq
              have hf := fetchAt_clean ctrl uc a
              rw [heq] at hf
              split
              · rename_i l2 heq2
                have hb := block_hook_clean (reg_write uc1 cfg.pc_register a) a
                  (ctrl, stop_on)
                rw [heq2] at hb
                exact cleanLog_append hf hb
              · rename_i e2 l2 heq2
                have hb := block_hook_clean (reg_write uc1 cfg.pc_register a) a
                  (ctrl, stop_on)
                rw [heq2] at hb
                exact cleanLog_append hf hb
              · rename_i uc3 l2 heq2
                have hb := block_hook_clean (reg_write uc1 cfg.pc_register a) a
                  (ctrl, stop_on)
                rw [heq2] at hb
                exact cleanLog_append (cleanLog_append hf hb) (ih uc3)

theorem emuStart_clean (ctrl : ProcessController) (cfg : ArchConfig)
    (stop_on b u : Nat) (engine : List UcEvent) (uc : UcState) :
    CleanLog (emuStart ctrl cfg stop_on b u engine uc).2 := by
  unfold emuStart
  split
  · rename_i uc1 l heq
    have h := fetchAt_clean ctrl uc b
    rw [heq] at h
    exact h
  · rename_i uc1 l heq
    have h := fetchAt_clean ctrl uc b
    rw [heq] at h
    exact cleanLog_append h (runEvents_clean ctrl cfg stop_on u engine uc1)

theorem setup_teb_x86_log (uc : UcState) (ctrl : ProcessController) :
    (_setup_teb_x86 uc ctrl).2 =
      [.getPageSize, .ucMemMap 0xff100000 ctrl.page_size (UC_PROT_READ ||| UC_PROT_WRITE),
        .getPageSize,
        .ucMemMap 0xff200000 ctrl.page_size (UC_PROT_READ ||| UC_PROT_WRITE)] := by
  simp only [_setup_teb_x86]
  repeat' first | rfl | split

theorem setup_teb_x64_log (uc : UcState) (ctrl : ProcessController) :
    (_setup_teb_x64 uc ctrl).2 =
      [.getPageSize,
        .ucMemMap 0xff10000000000000 ctrl.page_size (UC_PROT_READ ||| UC_PROT_WRITE),
        .getPageSize,
        .ucMemMap 0xff20000000000000 ctrl.page_size (UC_PROT_READ ||| UC_PROT_WRITE)] := by
  simp only [_setup_teb_x64]
  repeat' first | rfl | split

theorem buildEnv_clean_x86 (ctrl : ProcessController) :
    CleanLog (buildEnv ctrl ia32Config).2 := by
  simp only [buildEnv, ia32Config]
  split
  · simp [CleanLog, evIsProcessWrite]
  · split
    · simp [CleanLog, evIsProcessWrite]
    · split
      · simp [CleanLog, evIsProcessWrite]
      · split
        · rename_i logT heqT
          refine cleanLog_append (cleanLog_append ?_ ?_) ?_
          · simp [CleanLog, evIsProcessWrite]
          · simp [CleanLog, evIsProcessWrite]
          · have h := congrArg Prod.snd heqT
            rw [setup_teb_x86_log] at h
            have h2 : logT = _ := h.symm
            rw [h2]
            simp [CleanLog, evIsProcessWrite]
        · rename_i uc5 logT heqT
          refine cleanLog_append (cleanLog_append ?_ ?_) ?_
          · simp [CleanLog, evIsProcessWrite]
          · simp [CleanLog, evIsProcessWrite]
          · have h := congrArg Prod.snd heqT
            rw [setup_teb_x86_log] at h
            have h2 : logT = _ := h.symm
            rw [h2]
            simp [CleanLog, evIsProcessWrite]

theorem buildEnv_clean_x64 (ctrl : ProcessController) :
    CleanLog (buildEnv ctrl x64Config).2 := by
  simp only [buildEnv, x64Config]
  split
  · simp [CleanLog, evIsProcessWrite]
  · split
    · simp [CleanLog, evIsProcessWrite]
    · split
      · simp [CleanLog, evIsProcessWrite]
      · split
        · rename_i logT heqT
          refine cleanLog_append (cleanLog_append ?_ ?_) ?_
          · simp [CleanLog, evIsProcessWrite]
          · simp [CleanLog, evIsProcessWrite]
          · have h := congrArg Prod.snd heqT
            rw [setup_teb_x64_log] at h
            have h2 : logT = _ := h.symm
            rw [h2]
            simp [CleanLog, evIsProcessWrite]
        · rename_i uc5 logT heqT
          refine cleanLog_append (cleanLog_append ?_ ?_) ?_
          · simp [CleanLog, evIsProcessWrite]
          · simp [CleanLog, evIsProcessWrite]
          · have h := congrArg Prod.snd heqT
            rw [setup_teb_x64_log] at h
            have h2 : logT = _ := h.symm
            rw [h2]
            simp [CleanLog, evIsProcessWrite]

theorem buildEnv_clean (ctrl : ProcessController) (cfg : ArchConfig)
    (hcfg : cfg = ia32Config ∨ cfg = x64Config) :
    CleanLog (buildEnv ctrl cfg).2 := by
  rcases hcfg with hc | hc <;> subst hc
  · exact buildEnv_clean_x86 ctrl
  · exact buildEnv_clean_x64 ctrl

/-- C8: all interactions of `resolve_wrapped_api` with the real process
through the process-control service are reads — for every call, on every
engine behaviour, no event of the interaction log is a process write; the
real process is only ever queried (architecture, page size, pointer size,
memory reads, export enumeration), never mutated. -/
theorem c8_process_interactions_read_only (wrapper_start_addr : Nat)
    (ctrl : ProcessController) (expected_ret_addr : Option Nat)
    (engine : List UcEvent) :
    ∀ ev ∈ (resolve_wrapped_api wrapper_start_addr ctrl expected_ret_addr engine).2,
      evIsProcessWrite ev = false := by
  unfold resolve_wrapped_api
  split
  · exact cleanLog_cons rfl cleanLog_nil
  · rename_i cfg heq
    have hcfg := archConfig_cases heq
    split
    · rename_i l heq2
      have hb := buildEnv_clean ctrl cfg hcfg
      rw [heq2] at hb
      exact cleanLog_cons rfl hb
    · rename_i l heq2
      have hb := buildEnv_clean ctrl cfg hcfg
      rw [heq2] at hb
      exact cleanLog_cons rfl hb
    · rename_i uc l heq2
      have hb := buildEnv_clean ctrl cfg hcfg
      rw [heq2] at hb
      split
      · rename_i s2 l2 heq3
        have he2 := emuStart_clean ctrl cfg
          (expected_ret_addr.getD STACK_MAGIC_RET_ADDR) wrapper_start_addr
          (wrapper_start_addr + 1024) engine uc
        rw [heq3] at he2
        exact cleanLog_cons rfl (cleanLog_append hb he2)
      · rename_i s2 l2 heq3
        have he2 := emuStart_clean ctrl cfg
          (expected_ret_addr.getD STACK_MAGIC_RET_ADDR) wrapper_start_addr
          (wrapper_start_addr + 1024) engine uc
        rw [heq3] at he2
        exact cleanLog_cons rfl (cleanLog_append hb he2)
      · rename_i ex s2 l2 heq3
        have he2 := emuStart_clean ctrl cfg
          (expected_ret_addr.getD STACK_MAGIC_RET_ADDR) wrapper_start_addr
          (wrapper_start_addr + 1024) engine uc
        rw [heq3] at he2
        exact cleanLog_cons rfl (cleanLog_append hb he2)

set_option maxRecDepth 4000 in
/-- Witness for C8: a concrete event of a concrete resolution's log, shown
not to be a process write by the theorem. -/
theorem c8_process_interactions_read_only_witness :
    TraceEv.readProcessMemory 0x400000 0x40 ∈
      (resolve_wrapped_api 0x400000 failCtrl none []).2 ∧
    evIsProcessWrite (TraceEv.readProcessMemory 0x400000 0x40) = false :=
  ⟨by decide,
   c8_process_interactions_read_only 0x400000 failCtrl none []
     (TraceEv.readProcessMemory 0x400000 0x40) (by decide)⟩

end Unlicense
